import Mathlib

/-!
Verification of the request/pagination/error-classification core of the
evergreen.py client library (`_BaseEvergreenApi` in `src/evergreen/api.py`).

The embedding models:
  * JSON bodies as either a JSON list of (opaque) records or a JSON object
    of string fields — the only shapes the core inspects;
  * an HTTP response as (status code, optional parsed JSON body, optional
    "next" link URL); a body of `none` stands for a body that is not valid
    JSON, on which Python's `response.json()` raises a decode error;
  * the server as the finite arrival sequence of responses consumed by a
    pagination run;
  * Python exceptions as a `PyError` sum, threaded through `Except`.
-/

/-- JSON values as far as the core inspects them: a list of records
(records are opaque, modelled as strings) or an object with string fields. -/
inductive Json where
  | jlist (records : List String)
  | jobj (fields : List (String × String))
  deriving DecidableEq, Repr

/-- Query parameters: an ordered mapping of string keys to integer values
(the only value the core reads, `limit`, is numeric). `none` models Python's
`params=None`; `some []` models an empty dict. -/
abbrev Params := List (String × Int)

/-- One HTTP response as consumed by the core: status code, parsed JSON body
(`none` when the body is not valid JSON, so `response.json()` raises), and
the URL of the `next` link relation when present (`response.links`). -/
structure PageResponse where
  status_code : Nat
  body : Option Json
  next_url : Option String
  deriving DecidableEq, Repr

/-- One physical request as issued by the core: the URL it targets and the
query parameters sent with it. -/
structure Request where
  url : String
  params : Option Params
  deriving DecidableEq, Repr

/-- Python exceptions the core can raise:
  * `httpError msg status` — `requests.exceptions.HTTPError` raised by
    `_raise_for_status` with the server-supplied `error` message
    (the spec's ServiceError);
  * `statusError status` — the `HTTPError` raised by the generic
    `response.raise_for_status()` (the spec's TransportError);
  * `jsonDecodeError` — `response.json()` on a body that is not valid JSON
    (the spec's PayloadError);
  * `typeError` — `json['error']` on a JSON list;
  * `extendAttrError` — `.extend` on a JSON object;
  * `serverExhausted` — model artifact: the finite arrival sequence ran out
    while a `next` link demanded another page. -/
inductive PyError where
  | httpError (msg : String) (status : Nat)
  | statusError (status : Nat)
  | jsonDecodeError
  | typeError
  | extendAttrError
  | serverExhausted
  deriving DecidableEq, Repr

/-- Log severities used by `_log_api_call_time` (`LOGGER.info` / `LOGGER.debug`). -/
inductive LogLevel where
  | info
  | debug
  deriving DecidableEq, Repr

/-- Python `'error' in response.json()`: key membership for a dict,
element membership for a list. -/
def jsonHasError : Json → Bool
  | .jlist records => records.contains "error"
  | .jobj fields => (fields.map Prod.fst).contains "error"

/-- Python `response.json()['error']`: field lookup on a dict; indexing a
list with a string key raises `TypeError`. -/
def jsonGetErrorField : Json → Except PyError String
  | .jlist _ => .error .typeError
  | .jobj fields =>
    match fields.lookup "error" with
    | some v => .ok v
    | none => .error .typeError

/-- Python `len(json_data)`: element count of a list, key count of a dict. -/
def jsonLen : Json → Nat
  | .jlist records => records.length
  | .jobj fields => fields.length

/-- Python truthiness `if response.json():` — an empty list or empty dict
is falsy. -/
def jsonTruthy : Json → Bool
  | .jlist records => !records.isEmpty
  | .jobj fields => !fields.isEmpty

/-- Python `json_data.extend(new)`: appends the elements of `new` to a list
(the keys, when `new` is a dict); raises `AttributeError` when `json_data`
is a dict. -/
def jsonExtend : Json → Json → Except PyError Json
  | .jlist xs, .jlist ys => .ok (.jlist (xs ++ ys))
  | .jlist xs, .jobj fields => .ok (.jlist (xs ++ fields.map Prod.fst))
  | .jobj _, _ => .error .extendAttrError

/-- Modelled from the spec: the external `requests` library's
`response.raise_for_status()` is not part of this repository; per the spec's
generic convention, a status code ≥ 400 indicates failure and raises the
generic `HTTPError` carrying the status code. -/
def requestsRaiseForStatus (r : PageResponse) : Except PyError Unit :=
  if r.status_code ≥ 400 then .error (.statusError r.status_code) else .ok ()

/-- `_BaseEvergreenApi._raise_for_status`:
`if response.status_code >= 400 and 'error' in response.json(): raise
requests.exceptions.HTTPError(response.json()['error'], response=response)`
then `response.raise_for_status()`. The `and` short-circuits, so the body is
only parsed when the status is ≥ 400; a body of `none` then raises the JSON
decode error from `response.json()`. -/
def _raise_for_status (r : PageResponse) : Except PyError Unit :=
  if r.status_code ≥ 400 then
    match r.body with
    | none => .error .jsonDecodeError
    | some j =>
      if jsonHasError j then
        match jsonGetErrorField j with
        | .ok msg => .error (.httpError msg r.status_code)
        | .error e => .error e
      else requestsRaiseForStatus r
  else requestsRaiseForStatus r

/-- `_BaseEvergreenApi._call_api`: performs one GET (the response is supplied
by the server model), applies `_raise_for_status`, and returns the response
unchanged on success. -/
def _call_api (r : PageResponse) : Except PyError PageResponse :=
  match _raise_for_status r with
  | .error e => .error e
  | .ok _ => .ok r

/-- `_BaseEvergreenApi._create_url`: builds
`'{api_server}/rest/v2{endpoint}'` by string formatting. -/
def _create_url (api_server endpoint : String) : String :=
  api_server ++ "/rest/v2" ++ endpoint

/-- `_BaseEvergreenApi._log_api_call_time`: chooses the log severity from the
measured duration — `LOGGER.info` when the duration exceeds 10 seconds,
`LOGGER.debug` otherwise. -/
def _log_api_call_time (duration : Int) : LogLevel :=
  if duration > 10 then .info else .debug

/-- The guard `params and 'limit' in params and len(json_data) >= params['limit']`
of the pagination loop: true only when `params` is a truthy (non-`None`,
non-empty) mapping containing the key `limit` whose value the accumulated
record count meets or exceeds. -/
def limitReached (params : Option Params) (json_data : Json) : Bool :=
  match params with
  | none => false
  | some ps =>
    if ps.isEmpty then false
    else
      match ps.lookup "limit" with
      | none => false
      | some l => decide ((jsonLen json_data : Int) ≥ l)

/-- The `while "next" in response.links:` loop of `_paginate`, with the server
modelled as the remaining arrival sequence `rest` and the issued requests
recorded in `trace`. Each iteration: break when there is no `next` link or
the limit guard fires; otherwise call `_call_api(response.links['next']['url'])`
(no params), and extend `json_data` with the new body when it is truthy. -/
def paginate_loop (params : Option Params) (json_data : Json)
    (response : PageResponse) (rest : List PageResponse)
    (trace : List Request) : Except PyError (Json × List Request) :=
  match response.next_url with
  | none => .ok (json_data, trace)
  | some nurl =>
    if limitReached params json_data then .ok (json_data, trace)
    else
      match rest with
      | [] => .error .serverExhausted
      | r :: rest' =>
        match _call_api r with
        | .error e => .error e
        | .ok resp =>
          match resp.body with
          | none => .error .jsonDecodeError
          | some j =>
            if jsonTruthy j then
              match jsonExtend json_data j with
              | .error e => .error e
              | .ok newData =>
                paginate_loop params newData resp rest' (trace ++ [⟨nurl, none⟩])
            else
              paginate_loop params json_data resp rest' (trace ++ [⟨nurl, none⟩])

/-- `_BaseEvergreenApi._paginate`: first `_call_api(url, params)`, then
`json_data = response.json()` (raising on an unparseable body), then the
pagination loop. The result pairs the returned JSON with the trace of
physical requests issued. -/
def _paginate (server : List PageResponse) (url : String)
    (params : Option Params) : Except PyError (Json × List Request) :=
  match server with
  | [] => .error .serverExhausted
  | r :: rest =>
    match _call_api r with
    | .error e => .error e
    | .ok resp =>
      match resp.body with
      | none => .error .jsonDecodeError
      | some json_data => paginate_loop params json_data resp rest [⟨url, params⟩]

/-- The pagination loop instrumented with timing: `durs k` is the measured
duration of the `k`-th physical call, and the chosen log severities are
recorded alongside the result. -/
def paginate_logged_loop (params : Option Params) (durs : Nat → Int)
    (json_data : Json) (response : PageResponse) (rest : List PageResponse)
    (trace : List Request) (k : Nat) (logs : List LogLevel) :
    Except PyError (Json × List Request) × List LogLevel :=
  match response.next_url with
  | none => (.ok (json_data, trace), logs)
  | some nurl =>
    if limitReached params json_data then (.ok (json_data, trace), logs)
    else
      match rest with
      | [] => (.error .serverExhausted, logs)
      | r :: rest' =>
        let lg := _log_api_call_time (durs k)
        match _call_api r with
        | .error e => (.error e, logs ++ [lg])
        | .ok resp =>
          match resp.body with
          | none => (.error .jsonDecodeError, logs ++ [lg])
          | some j =>
            if jsonTruthy j then
              match jsonExtend json_data j with
              | .error e => (.error e, logs ++ [lg])
              | .ok newData =>
                paginate_logged_loop params durs newData resp rest'
                  (trace ++ [⟨nurl, none⟩]) (k + 1) (logs ++ [lg])
            else
              paginate_logged_loop params durs json_data resp rest'
                (trace ++ [⟨nurl, none⟩]) (k + 1) (logs ++ [lg])

/-- `_paginate` instrumented with timing: every physical call also logs its
duration at the severity chosen by `_log_api_call_time`. -/
def _paginate_logged (server : List PageResponse) (url : String)
    (params : Option Params) (durs : Nat → Int) :
    Except PyError (Json × List Request) × List LogLevel :=
  match server with
  | [] => (.error .serverExhausted, [])
  | r :: rest =>
    let lg := _log_api_call_time (durs 0)
    match _call_api r with
    | .error e => (.error e, [lg])
    | .ok resp =>
      match resp.body with
      | none => (.error .jsonDecodeError, [lg])
      | some json_data =>
        paginate_logged_loop params durs json_data resp rest [⟨url, params⟩] 1 [lg]

/-- The records of a page: its body's record list when that body is a JSON
list, `[]` otherwise. -/
def pageRecords (r : PageResponse) : List String :=
  match r.body with
  | some (.jlist records) => records
  | _ => []

/-- A page response that passes error classification and carries a JSON list
body: a successful collection page. -/
def okListPage (r : PageResponse) : Bool :=
  decide (r.status_code < 400) &&
    (match r.body with
     | some (.jlist _) => true
     | _ => false)

/-- The arrival sequence carries a `next` link on every page except the
last, which carries none. -/
def chainedPages : List PageResponse → Bool
  | [] => true
  | [r] => r.next_url.isNone
  | r :: rest => r.next_url.isSome && chainedPages rest

/-- No `limit` parameter is supplied: `params` is `None` or lacks the key. -/
def noLimitParams : Option Params → Bool
  | none => true
  | some ps => (ps.lookup "limit").isNone

/-! ## Basic lemmas about the embedding -/

theorem raise_for_status_ok {r : PageResponse} (h : r.status_code < 400) :
    _raise_for_status r = .ok () := by
  have h4 : ¬ (r.status_code ≥ 400) := by omega
  simp [_raise_for_status, requestsRaiseForStatus, h4]

theorem call_api_ok {r : PageResponse} (h : r.status_code < 400) :
    _call_api r = .ok r := by
  rw [_call_api, raise_for_status_ok h]

theorem okListPage_elim {r : PageResponse} (h : okListPage r = true) :
    r.status_code < 400 ∧ r.body = some (.jlist (pageRecords r)) := by
  unfold okListPage at h
  cases hb : r.body with
  | none => rw [hb] at h; simp at h
  | some j =>
    cases j with
    | jlist records =>
      rw [hb] at h
      simp only [Bool.and_eq_true, decide_eq_true_eq] at h
      exact ⟨h.1, by simp [pageRecords, hb]⟩
    | jobj fields => rw [hb] at h; simp at h

theorem keys_contains_of_lookup {fields : List (String × String)} {k v : String}
    (h : fields.lookup k = some v) : (fields.map Prod.fst).contains k = true := by
  induction fields with
  | nil => simp [List.lookup] at h
  | cons p rest ih =>
    rw [List.lookup] at h
    cases hk : (k == p.1) with
    | false =>
      rw [hk] at h
      simpa [List.contains, List.elem, hk] using ih h
    | true => simp [List.contains, List.elem, hk]

theorem limitReached_of_noLimit {params : Option Params}
    (h : noLimitParams params = true) (d : Json) :
    limitReached params d = false := by
  cases params with
  | none => rfl
  | some ps =>
    simp only [noLimitParams, Option.isNone_iff_eq_none] at h
    simp [limitReached, h]

theorem limitReached_true {ps : Params} {L : Int} {d : Json}
    (hL : ps.lookup "limit" = some L) (hge : L ≤ (jsonLen d : Int)) :
    limitReached (some ps) d = true := by
  have hne : ps.isEmpty = false := by
    cases ps with
    | nil => simp [List.lookup] at hL
    | cons p rest => rfl
  simp [limitReached, hne, hL, hge]

theorem paginate_loop_no_next {params : Option Params} {d : Json}
    {resp : PageResponse} (rest : List PageResponse) (tr : List Request)
    (h : resp.next_url = none) :
    paginate_loop params d resp rest tr = .ok (d, tr) := by
  rw [paginate_loop, h]

theorem paginate_loop_of_limit {params : Option Params} {d : Json}
    {resp : PageResponse} {nurl : String} (rest : List PageResponse)
    (tr : List Request) (h : resp.next_url = some nurl)
    (hl : limitReached params d = true) :
    paginate_loop params d resp rest tr = .ok (d, tr) := by
  rw [paginate_loop, h]
  simp [hl]

theorem paginate_loop_step {params : Option Params} {d : Json}
    {resp : PageResponse} {nurl : String} (r : PageResponse)
    (rest : List PageResponse) (tr : List Request)
    (h : resp.next_url = some nurl) (hl : limitReached params d = false) :
    paginate_loop params d resp (r :: rest) tr =
      match _call_api r with
      | .error e => .error e
      | .ok resp2 =>
        match resp2.body with
        | none => .error .jsonDecodeError
        | some j =>
          if jsonTruthy j then
            match jsonExtend d j with
            | .error e => .error e
            | .ok newData => paginate_loop params newData resp2 rest (tr ++ [⟨nurl, none⟩])
          else paginate_loop params d resp2 rest (tr ++ [⟨nurl, none⟩]) := by
  conv_lhs => rw [paginate_loop]
  rw [h]
  simp [hl]

theorem loop_extend_list (params : Option Params) (acc ys : List String)
    (resp2 : PageResponse) (rest : List PageResponse) (tr : List Request) :
    (if jsonTruthy (.jlist ys) then
       match jsonExtend (.jlist acc) (.jlist ys) with
       | .error e => .error e
       | .ok newData => paginate_loop params newData resp2 rest tr
     else paginate_loop params (.jlist acc) resp2 rest tr)
    = paginate_loop params (.jlist (acc ++ ys)) resp2 rest tr := by
  cases ys with
  | nil => simp [jsonTruthy]
  | cons y ys' => simp [jsonTruthy, jsonExtend]

theorem paginate_loop_concat (params : Option Params)
    (hnl : ∀ d, limitReached params d = false) :
    ∀ (rest : List PageResponse) (resp : PageResponse) (acc : List String)
      (tr : List Request),
      chainedPages (resp :: rest) = true →
      (∀ r ∈ rest, okListPage r = true) →
      ∃ tr2, paginate_loop params (.jlist acc) resp rest tr =
          .ok (.jlist (acc ++ (rest.map pageRecords).flatten), tr ++ tr2) ∧
        tr2.length = rest.length := by
  intro rest
  induction rest with
  | nil =>
    intro resp acc tr hch _
    have hn : resp.next_url = none := by
      simpa [chainedPages, Option.isNone_iff_eq_none] using hch
    refine ⟨[], ?_, rfl⟩
    rw [paginate_loop_no_next [] tr hn]
    simp
  | cons r rest' ih =>
    intro resp acc tr hch hok
    have hch2 : resp.next_url.isSome = true ∧ chainedPages (r :: rest') = true := by
      simpa [chainedPages] using hch
    obtain ⟨nurl, hn⟩ := Option.isSome_iff_exists.mp hch2.1
    have hokr := okListPage_elim (hok r (List.mem_cons_self r rest'))
    obtain ⟨tr2, heq, hlen⟩ :=
      ih r (acc ++ pageRecords r) (tr ++ [⟨nurl, none⟩]) hch2.2
        (fun x hx => hok x (List.mem_cons_of_mem r hx))
    refine ⟨⟨nurl, none⟩ :: tr2, ?_, by simp [hlen]⟩
    rw [paginate_loop_step r rest' tr hn (hnl _)]
    simp only [call_api_ok hokr.1, hokr.2]
    rw [loop_extend_list, heq]
    simp [List.flatten]

theorem call_api_ok_elim {r resp2 : PageResponse} (h : _call_api r = .ok resp2) :
    resp2 = r := by
  unfold _call_api at h
  split at h
  · exact absurd h (by simp)
  · simpa using (Except.ok.inj h).symm

theorem paginate_loop_step_error {params : Option Params} {d : Json}
    {resp : PageResponse} {nurl : String} (r : PageResponse)
    (rest : List PageResponse) (tr : List Request) (hn : resp.next_url = some nurl)
    (hl : limitReached params d = false) {e : PyError} (hc : _call_api r = .error e) :
    paginate_loop params d resp (r :: rest) tr = .error e := by
  rw [paginate_loop_step r rest tr hn hl, hc]

theorem paginate_loop_step_ok {params : Option Params} {d : Json}
    {resp : PageResponse} {nurl : String} (r : PageResponse)
    (rest : List PageResponse) (tr : List Request) (hn : resp.next_url = some nurl)
    (hl : limitReached params d = false) (hc : _call_api r = .ok r) :
    paginate_loop params d resp (r :: rest) tr =
      match r.body with
      | none => .error .jsonDecodeError
      | some j =>
        if jsonTruthy j then
          match jsonExtend d j with
          | .error e => .error e
          | .ok newData => paginate_loop params newData r rest (tr ++ [⟨nurl, none⟩])
        else paginate_loop params d r rest (tr ++ [⟨nurl, none⟩]) := by
  rw [paginate_loop_step r rest tr hn hl, hc]

theorem paginate_concat_of_noLimit (rs : List PageResponse) (u : String)
    (p : Option Params) (hne : rs ≠ []) (hok : ∀ x ∈ rs, okListPage x = true)
    (hch : chainedPages rs = true) (hnl : noLimitParams p = true) :
    ∃ tr, _paginate rs u p = .ok (.jlist ((rs.map pageRecords).flatten), tr) ∧
      tr.length = rs.length := by
  match rs, hne with
  | r :: rest, _ =>
    have hokr := okListPage_elim (hok r (List.mem_cons_self r rest))
    obtain ⟨tr2, heq, hlen⟩ :=
      paginate_loop_concat p (limitReached_of_noLimit hnl) rest r (pageRecords r)
        [⟨u, p⟩] hch (fun x hx => hok x (List.mem_cons_of_mem r hx))
    refine ⟨⟨u, p⟩ :: tr2, ?_, by simp [hlen]⟩
    simp only [_paginate, call_api_ok hokr.1, hokr.2]
    rw [heq]
    simp [List.flatten]

/-! ## Claims -/

/-- C1: for every sequence of N page responses in which each page carries a
"next" link except the last and no limit parameter is supplied, `_paginate`
returns exactly the concatenation of all N pages' record lists in arrival
order — no record dropped, duplicated, or reordered — and issues exactly N
physical requests, terminating as soon as a response lacks the "next" link. -/
theorem paginate_returns_all_pages_in_order (rs : List PageResponse)
    (url : String) (params : Option Params) (hne : rs ≠ [])
    (hok : ∀ r ∈ rs, okListPage r = true) (hch : chainedPages rs = true)
    (hnl : noLimitParams params = true) :
    ∃ tr, _paginate rs url params =
        .ok (.jlist ((rs.map pageRecords).flatten), tr) ∧
      tr.length = rs.length :=
  paginate_concat_of_noLimit rs url params hne hok hch hnl

/-- Witness for C1: a three-page run (with an empty middle page) returns all
records in order and issues exactly three requests. -/
theorem paginate_returns_all_pages_in_order_witness :
    ∃ tr, _paginate
        [⟨200, some (.jlist ["a", "b"]), some "u2"⟩,
         ⟨200, some (.jlist []), some "u3"⟩,
         ⟨200, some (.jlist ["c"]), none⟩] "u1" none =
      .ok (.jlist ["a", "b", "c"], tr) ∧ tr.length = 3 := by
  have h := paginate_returns_all_pages_in_order
    [⟨200, some (.jlist ["a", "b"]), some "u2"⟩,
     ⟨200, some (.jlist []), some "u3"⟩,
     ⟨200, some (.jlist ["c"]), none⟩] "u1" none
    (by decide) (by decide) (by decide) (by decide)
  simpa using h

/-- C8: `_create_url` is a pure, deterministic string concatenation of the
configured server origin, the fixed "/rest/v2" path, and the supplied
resource path; for endpoint "http://host", `_create_url "/projects/foo"`
yields exactly "http://host/rest/v2/projects/foo". -/
theorem create_url_is_pure_concatenation :
    (∀ api_server endpoint, _create_url api_server endpoint =
        api_server ++ "/rest/v2" ++ endpoint) ∧
    _create_url "http://host" "/projects/foo" =
      "http://host/rest/v2/projects/foo" :=
  ⟨fun _ _ => rfl, by decide⟩

/-- C2: with a params mapping containing a numeric limit L, if the first page
already holds ≥ L records and carries a "next" link, exactly one physical
request is issued and the page is returned untruncated; in general the loop
stops before issuing a subsequent fetch whenever the accumulated record
count meets or exceeds L, never slicing off a fetched record. -/
theorem limit_stops_before_next_fetch (ps : Params) (L : Int) (url : String)
    (nurl : String) (r : PageResponse) (rest : List PageResponse)
    (hL : ps.lookup "limit" = some L) (hok : okListPage r = true)
    (hn : r.next_url = some nurl)
    (hge : L ≤ ((pageRecords r).length : Int)) :
    _paginate (r :: rest) url (some ps) =
      .ok (.jlist (pageRecords r), [⟨url, some ps⟩]) ∧
    (∀ (acc : List String) (resp : PageResponse) (rest' : List PageResponse)
       (tr : List Request) (u : String),
      resp.next_url = some u → L ≤ (acc.length : Int) →
      paginate_loop (some ps) (.jlist acc) resp rest' tr = .ok (.jlist acc, tr)) := by
  have hlim : ∀ acc : List String, L ≤ (acc.length : Int) →
      limitReached (some ps) (.jlist acc) = true := fun acc h =>
    limitReached_true hL (by simpa [jsonLen] using h)
  have hokr := okListPage_elim hok
  constructor
  · simp only [_paginate, call_api_ok hokr.1, hokr.2]
    rw [paginate_loop_of_limit rest [⟨url, some ps⟩] hn (hlim _ hge)]
  · intro acc resp rest' tr u hu hge'
    exact paginate_loop_of_limit rest' tr hu (hlim acc hge')

/-- Witness for C2: limit 2, a first page of three records with a "next"
link: one request, the full three-record page returned; and a loop state
holding two records with limit 2 stops without fetching. -/
theorem limit_stops_before_next_fetch_witness :
    _paginate [⟨200, some (.jlist ["a", "b", "c"]), some "u2"⟩] "u1"
        (some [("limit", 2)]) =
      .ok (.jlist ["a", "b", "c"], [⟨"u1", some [("limit", 2)]⟩]) ∧
    paginate_loop (some [("limit", 2)]) (.jlist ["x", "y"])
        ⟨200, some (.jlist ["z"]), some "u9"⟩ [] [] =
      .ok (.jlist ["x", "y"], []) := by
  have h := limit_stops_before_next_fetch [("limit", 2)] 2 "u1" "u2"
    ⟨200, some (.jlist ["a", "b", "c"]), some "u2"⟩ [] (by decide) (by decide)
    rfl (by decide)
  exact ⟨h.1, h.2 ["x", "y"] ⟨200, some (.jlist ["z"]), some "u9"⟩ [] [] "u9"
    rfl (by decide)⟩

/-- C3: a response with status ≥ 400 whose body is valid JSON containing an
`error` field makes classification fail with the server-supplied message and
the original status code (ServiceError), taking priority over the generic
HTTP-status failure, both in `_raise_for_status` and through `_call_api` and
`_paginate`. -/
theorem service_error_priority (r : PageResponse)
    (fields : List (String × String)) (msg : String) (url : String)
    (params : Option Params) (rest : List PageResponse)
    (h4 : 400 ≤ r.status_code) (hb : r.body = some (.jobj fields))
    (he : fields.lookup "error" = some msg) :
    _raise_for_status r = .error (.httpError msg r.status_code) ∧
    _call_api r = .error (.httpError msg r.status_code) ∧
    _paginate (r :: rest) url params = .error (.httpError msg r.status_code) := by
  have hhe : jsonHasError (.jobj fields) = true := by
    simpa [jsonHasError] using keys_contains_of_lookup he
  have h1 : _raise_for_status r = .error (.httpError msg r.status_code) := by
    simp [_raise_for_status, h4, hb, hhe, jsonGetErrorField, he]
  have h2 : _call_api r = .error (.httpError msg r.status_code) := by
    rw [_call_api, h1]
  exact ⟨h1, h2, by simp only [_paginate, h2]⟩

/-- Witness for C3: status 422 with body containing the error field
"invalid project id" fails with exactly that message and status 422. -/
theorem service_error_priority_witness :
    _raise_for_status ⟨422, some (.jobj [("error", "invalid project id")]), none⟩ =
      .error (.httpError "invalid project id" 422) ∧
    _call_api ⟨422, some (.jobj [("error", "invalid project id")]), none⟩ =
      .error (.httpError "invalid project id" 422) ∧
    _paginate [⟨422, some (.jobj [("error", "invalid project id")]), none⟩]
        "u1" none =
      .error (.httpError "invalid project id" 422) :=
  service_error_priority _ [("error", "invalid project id")]
    "invalid project id" "u1" none [] (by decide) rfl (by decide)

/-- C4 counterexample: a status-500 response whose body is not valid JSON is
rejected with the JSON decode error raised by `response.json()` inside the
`'error' in response.json()` probe, not with the generic HTTP-status failure
carrying status 500 that the claim requires. -/
theorem nonjson_error_body_counterexample :
    _raise_for_status ⟨500, none, none⟩ = .error .jsonDecodeError ∧
    _raise_for_status ⟨500, none, none⟩ ≠ .error (.statusError 500) := by
  refine ⟨rfl, fun h => ?_⟩
  rw [show _raise_for_status ⟨500, none, none⟩ = .error .jsonDecodeError from rfl] at h
  simp at h

/-- C4 (amended): a response with status ≥ 400 whose body is valid JSON
without an `error` field fails with the generic HTTP-status failure
(TransportError) carrying the status code, never ServiceError; but a
response with status ≥ 400 whose body is not valid JSON fails with the JSON
parse error raised while probing the body for an `error` field, not with
TransportError. -/
theorem status_failure_transport_or_parse (r : PageResponse)
    (h4 : 400 ≤ r.status_code) :
    (∀ j, r.body = some j → jsonHasError j = false →
      _raise_for_status r = .error (.statusError r.status_code)) ∧
    (r.body = none → _raise_for_status r = .error .jsonDecodeError) := by
  constructor
  · intro j hb hne
    simp [_raise_for_status, h4, hb, hne, requestsRaiseForStatus]
  · intro hb
    simp [_raise_for_status, h4, hb]

/-- Witness for C4 (amended): a 500 with a JSON body lacking `error` gives
the generic status failure; a 503 with an unparseable body gives the JSON
decode error. -/
theorem status_failure_transport_or_parse_witness :
    _raise_for_status ⟨500, some (.jobj [("detail", "boom")]), none⟩ =
      .error (.statusError 500) ∧
    _raise_for_status ⟨503, none, none⟩ = .error .jsonDecodeError :=
  ⟨(status_failure_transport_or_parse ⟨500, some (.jobj [("detail", "boom")]), none⟩
      (by decide)).1 (.jobj [("detail", "boom")]) rfl (by decide),
   (status_failure_transport_or_parse ⟨503, none, none⟩ (by decide)).2 rfl⟩

theorem paginate_loop_trace (params : Option Params) :
    ∀ (rest : List PageResponse) (d : Json) (resp : PageResponse)
      (tr0 : List Request) (out : Json) (tr : List Request),
      paginate_loop params d resp rest tr0 = .ok (out, tr) →
      ∃ tr2, tr = tr0 ++ tr2 ∧
        ∀ req ∈ tr2, req.params = none ∧
          ∃ x, x ∈ resp :: rest ∧ x.next_url = some req.url := by
  intro rest
  induction rest with
  | nil =>
    intro d resp tr0 out tr h
    cases hn : resp.next_url with
    | none =>
      rw [paginate_loop_no_next _ _ hn] at h
      simp only [Except.ok.injEq, Prod.mk.injEq] at h
      exact ⟨[], by simp [h.2], by simp⟩
    | some nurl =>
      by_cases hl : limitReached params d = true
      · rw [paginate_loop_of_limit _ _ hn hl] at h
        simp only [Except.ok.injEq, Prod.mk.injEq] at h
        exact ⟨[], by simp [h.2], by simp⟩
      · rw [paginate_loop, hn] at h
        simp only [Bool.not_eq_true] at hl
        rw [hl] at h
        simp at h
  | cons r rest' ih =>
    intro d resp tr0 out tr h
    cases hn : resp.next_url with
    | none =>
      rw [paginate_loop_no_next _ _ hn] at h
      simp only [Except.ok.injEq, Prod.mk.injEq] at h
      exact ⟨[], by simp [h.2], by simp⟩
    | some nurl =>
      by_cases hl : limitReached params d = true
      · rw [paginate_loop_of_limit _ _ hn hl] at h
        simp only [Except.ok.injEq, Prod.mk.injEq] at h
        exact ⟨[], by simp [h.2], by simp⟩
      · have hl' : limitReached params d = false := by simpa using hl
        cases hc : _call_api r with
        | error e =>
          rw [paginate_loop_step_error r rest' tr0 hn hl' hc] at h
          simp at h
        | ok resp2 =>
          have hc' : _call_api r = .ok r := by
            rw [call_api_ok_elim hc] at hc
            exact hc
          rw [paginate_loop_step_ok r rest' tr0 hn hl' hc'] at h
          cases hb : r.body with
          | none => rw [hb] at h; simp at h
          | some j =>
            simp only [hb] at h
            have pack : ∀ d' : Json,
                paginate_loop params d' r rest' (tr0 ++ [⟨nurl, none⟩]) = .ok (out, tr) →
                ∃ tr2, tr = tr0 ++ tr2 ∧
                  ∀ req ∈ tr2, req.params = none ∧
                    ∃ x, x ∈ resp :: r :: rest' ∧ x.next_url = some req.url := by
              intro d' h'
              obtain ⟨tr2', htr, hprop⟩ := ih d' r (tr0 ++ [⟨nurl, none⟩]) out tr h'
              refine ⟨⟨nurl, none⟩ :: tr2', by simpa using htr, ?_⟩
              intro req hreq
              rcases List.mem_cons.mp hreq with hr | hreq'
              · subst hr
                exact ⟨rfl, resp, List.mem_cons_self _ _, hn⟩
              · obtain ⟨hp, x, hx1, hx2⟩ := hprop req hreq'
                exact ⟨hp, x, List.mem_cons_of_mem _ hx1, hx2⟩
            by_cases hj : jsonTruthy j = true
            · rw [if_pos hj] at h
              cases hx : jsonExtend d j with
              | error e => rw [hx] at h; simp at h
              | ok newData =>
                rw [hx] at h
                exact pack newData h
            · rw [if_neg hj] at h
              exact pack d h

/-- C5: in every successful pagination run, the caller's params are sent
only with the first physical request; every subsequent request carries no
query parameters and targets exactly a server-supplied next-page URL. -/
theorem next_page_requests_carry_no_params (rs : List PageResponse)
    (url : String) (params : Option Params) (out : Json) (tr : List Request)
    (h : _paginate rs url params = .ok (out, tr)) :
    tr.head? = some ⟨url, params⟩ ∧
    ∀ req ∈ tr.tail, req.params = none ∧
      ∃ x, x ∈ rs ∧ x.next_url = some req.url := by
  match rs with
  | [] => rw [_paginate] at h; simp at h
  | r :: rest =>
    simp only [_paginate] at h
    cases hc : _call_api r with
    | error e => rw [hc] at h; simp at h
    | ok resp2 =>
      have hc' : _call_api r = .ok r := by
        rw [call_api_ok_elim hc] at hc
        exact hc
      simp only [hc'] at h
      cases hb : r.body with
      | none => rw [hb] at h; simp at h
      | some json_data =>
        simp only [hb] at h
        obtain ⟨tr2, htr, hprop⟩ :=
          paginate_loop_trace params rest json_data r [⟨url, params⟩] out tr h
        subst htr
        refine ⟨by simp, ?_⟩
        intro req hreq
        have hreq' : req ∈ tr2 := by simpa using hreq
        obtain ⟨hp, x, hx1, hx2⟩ := hprop req hreq'
        exact ⟨hp, x, hx1, hx2⟩

/-- Witness for C5: on a concrete two-page run the first request carries the
original params and the single subsequent request carries none and targets
the server-supplied "u2". -/
theorem next_page_requests_carry_no_params_witness :
    ([⟨"u1", some [("start_at", 7)]⟩, ⟨"u2", none⟩] : List Request).head? =
      some ⟨"u1", some [("start_at", 7)]⟩ ∧
    (⟨"u2", none⟩ : Request).params = none := by
  have hrun : _paginate
      [⟨200, some (.jlist ["a"]), some "u2"⟩, ⟨200, some (.jlist ["b"]), none⟩]
      "u1" (some [("start_at", 7)]) =
      .ok (.jlist ["a", "b"], [⟨"u1", some [("start_at", 7)]⟩, ⟨"u2", none⟩]) := by
    rfl
  have h := next_page_requests_carry_no_params
    [⟨200, some (.jlist ["a"]), some "u2"⟩, ⟨200, some (.jlist ["b"]), none⟩]
    "u1" (some [("start_at", 7)]) (.jlist ["a", "b"])
    [⟨"u1", some [("start_at", 7)]⟩, ⟨"u2", none⟩] hrun
  exact ⟨h.1, (h.2 ⟨"u2", none⟩ (by simp)).1⟩

/-- C6 counterexample: a two-page run whose second page is a 200 with an
absent (unparseable) body does not contribute zero records and continue —
`response.json()` raises, so the whole run fails with the JSON decode error
instead of returning the first page's records. -/
theorem subsequent_absent_body_counterexample :
    _paginate [⟨200, some (.jlist ["a"]), some "u2"⟩, ⟨200, none, none⟩]
        "u1" none =
      .error .jsonDecodeError := by
  rfl

/-- C6 (amended): for a subsequent 2xx page, a body that is the empty JSON
list contributes zero records without error, and a JSON list body is
appended to the accumulator in order; but a body that is empty or absent
(not valid JSON) aborts the run with the JSON decode error rather than
being tolerated. -/
theorem subsequent_page_body_cases (params : Option Params) (acc : List String)
    (resp r : PageResponse) (rest : List PageResponse) (tr : List Request)
    (nurl : String) (hn : resp.next_url = some nurl)
    (hl : limitReached params (.jlist acc) = false)
    (hs : r.status_code < 400) :
    (r.body = some (.jlist []) →
      paginate_loop params (.jlist acc) resp (r :: rest) tr =
        paginate_loop params (.jlist acc) r rest (tr ++ [⟨nurl, none⟩])) ∧
    (∀ ys, r.body = some (.jlist ys) →
      paginate_loop params (.jlist acc) resp (r :: rest) tr =
        paginate_loop params (.jlist (acc ++ ys)) r rest (tr ++ [⟨nurl, none⟩])) ∧
    (r.body = none →
      paginate_loop params (.jlist acc) resp (r :: rest) tr =
        .error .jsonDecodeError) := by
  refine ⟨?_, ?_, ?_⟩
  · intro hb
    rw [paginate_loop_step_ok r rest tr hn hl (call_api_ok hs)]
    simp only [hb]
    rw [loop_extend_list]
    simp
  · intro ys hb
    rw [paginate_loop_step_ok r rest tr hn hl (call_api_ok hs)]
    simp only [hb]
    exact loop_extend_list params acc ys r rest (tr ++ [⟨nurl, none⟩])
  · intro hb
    rw [paginate_loop_step_ok r rest tr hn hl (call_api_ok hs)]
    simp only [hb]

/-- Witness for C6 (amended): concrete loop states showing the empty-list
page contributing nothing, a two-record page appended in order, and an
absent body aborting. -/
theorem subsequent_page_body_cases_witness :
    paginate_loop none (.jlist ["a"]) ⟨200, some (.jlist ["a"]), some "u2"⟩
        [⟨200, some (.jlist []), none⟩] [] =
      paginate_loop none (.jlist ["a"]) ⟨200, some (.jlist []), none⟩ []
        [⟨"u2", none⟩] ∧
    paginate_loop none (.jlist ["a"]) ⟨200, some (.jlist ["a"]), some "u2"⟩
        [⟨200, some (.jlist ["b", "c"]), none⟩] [] =
      paginate_loop none (.jlist ["a", "b", "c"]) ⟨200, some (.jlist ["b", "c"]), none⟩
        [] [⟨"u2", none⟩] ∧
    paginate_loop none (.jlist ["a"]) ⟨200, some (.jlist ["a"]), some "u2"⟩
        [⟨200, none, none⟩] [] =
      .error .jsonDecodeError := by
  refine ⟨?_, ?_, ?_⟩
  · exact (subsequent_page_body_cases none ["a"]
      ⟨200, some (.jlist ["a"]), some "u2"⟩ ⟨200, some (.jlist []), none⟩ [] []
      "u2" rfl (by decide) (by decide)).1 rfl
  · exact (subsequent_page_body_cases none ["a"]
      ⟨200, some (.jlist ["a"]), some "u2"⟩ ⟨200, some (.jlist ["b", "c"]), none⟩
      [] [] "u2" rfl (by decide) (by decide)).2.1 ["b", "c"] rfl
  · exact (subsequent_page_body_cases none ["a"]
      ⟨200, some (.jlist ["a"]), some "u2"⟩ ⟨200, none, none⟩ [] []
      "u2" rfl (by decide) (by decide)).2.2 rfl

/-- C7: a failing physical request (service error, transport error, or
payload parse failure) aborts the whole pagination run immediately with
that same error — no partial result, no skipped page, no retry. -/
theorem request_failure_aborts_run (e : PyError) (r0 : PageResponse)
    (rs : List PageResponse) (url : String) (params : Option Params)
    (d : Json) (resp rnext : PageResponse) (rest : List PageResponse)
    (tr : List Request) (nurl : String) :
    (_call_api r0 = .error e → _paginate (r0 :: rs) url params = .error e) ∧
    (r0.status_code < 400 → r0.body = none →
      _paginate (r0 :: rs) url params = .error .jsonDecodeError) ∧
    (resp.next_url = some nurl → limitReached params d = false →
      _call_api rnext = .error e →
      paginate_loop params d resp (rnext :: rest) tr = .error e) ∧
    (resp.next_url = some nurl → limitReached params d = false →
      rnext.status_code < 400 → rnext.body = none →
      paginate_loop params d resp (rnext :: rest) tr = .error .jsonDecodeError) := by
  refine ⟨?_, ?_, ?_, ?_⟩
  · intro h0
    simp only [_paginate, h0]
  · intro hs hb
    simp only [_paginate, call_api_ok hs, hb]
  · intro hn hl hc
    exact paginate_loop_step_error rnext rest tr hn hl hc
  · intro hn hl hs hb
    rw [paginate_loop_step_ok rnext rest tr hn hl (call_api_ok hs)]
    simp only [hb]

/-- Witness for C7: a 502 response with an `error` body aborts a run as its
first page and aborts the loop as a subsequent page; an unparseable 200
body aborts both the same way. -/
theorem request_failure_aborts_run_witness :
    _paginate [⟨502, some (.jobj [("error", "bad gateway")]), none⟩] "u1" none =
      .error (.httpError "bad gateway" 502) ∧
    _paginate [⟨200, none, some "u2"⟩] "u1" none = .error .jsonDecodeError ∧
    paginate_loop none (.jlist ["a"]) ⟨200, some (.jlist ["a"]), some "u2"⟩
        [⟨502, some (.jobj [("error", "bad gateway")]), none⟩] [] =
      .error (.httpError "bad gateway" 502) ∧
    paginate_loop none (.jlist ["a"]) ⟨200, some (.jlist ["a"]), some "u2"⟩
        [⟨200, none, none⟩] [] =
      .error .jsonDecodeError := by
  have h := request_failure_aborts_run (.httpError "bad gateway" 502)
    ⟨502, some (.jobj [("error", "bad gateway")]), none⟩ [] "u1" none
    (.jlist ["a"]) ⟨200, some (.jlist ["a"]), some "u2"⟩
    ⟨502, some (.jobj [("error", "bad gateway")]), none⟩ [] [] "u2"
  have h2 := request_failure_aborts_run (.httpError "bad gateway" 502)
    ⟨200, none, some "u2"⟩ [] "u1" none
    (.jlist ["a"]) ⟨200, some (.jlist ["a"]), some "u2"⟩
    ⟨200, none, none⟩ [] [] "u2"
  exact ⟨h.1 rfl, h2.2.1 (by decide) rfl,
    h.2.2.1 rfl (by decide) rfl,
    h2.2.2.2 rfl (by decide) (by decide) rfl⟩

theorem paginate_logged_loop_fst (params : Option Params) (durs : Nat → Int) :
    ∀ (rest : List PageResponse) (d : Json) (resp : PageResponse)
      (tr : List Request) (k : Nat) (logs : List LogLevel),
      (paginate_logged_loop params durs d resp rest tr k logs).1 =
        paginate_loop params d resp rest tr := by
  intro rest
  induction rest with
  | nil =>
    intro d resp tr k logs
    cases hn : resp.next_url with
    | none => simp [paginate_logged_loop, paginate_loop, hn]
    | some nurl =>
      by_cases hl : limitReached params d = true
      · simp [paginate_logged_loop, paginate_loop, hn, hl]
      · simp only [Bool.not_eq_true] at hl
        simp [paginate_logged_loop, paginate_loop, hn, hl]
  | cons r rest' ih =>
    intro d resp tr k logs
    cases hn : resp.next_url with
    | none => simp [paginate_logged_loop, paginate_loop, hn]
    | some nurl =>
      by_cases hl : limitReached params d = true
      · simp [paginate_logged_loop, paginate_loop, hn, hl]
      · simp only [Bool.not_eq_true] at hl
        rw [paginate_logged_loop, paginate_loop]
        simp only [hn, hl, Bool.false_eq_true, if_false]
        cases hc : _call_api r with
        | error e => simp [hc]
        | ok resp2 =>
          simp only [hc]
          cases hb : resp2.body with
          | none => simp
          | some j =>
            simp only
            by_cases hj : jsonTruthy j = true
            · simp only [hj, if_true]
              cases hx : jsonExtend d j with
              | error e => simp
              | ok newData => simpa using ih newData resp2 (tr ++ [⟨nurl, none⟩]) (k + 1) (logs ++ [_log_api_call_time (durs k)])
            · simp only [Bool.not_eq_true] at hj
              simp only [hj, Bool.false_eq_true, if_false]
              simpa using ih d resp2 (tr ++ [⟨nurl, none⟩]) (k + 1) (logs ++ [_log_api_call_time (durs k)])

/-- C9: pagination is deterministic in its inputs and the server's response
sequence — the timing-instrumented run returns exactly what the pure run
returns, for every assignment of measured durations; neither the measured
wall-clock duration nor the chosen log severity influences the result. -/
theorem paginate_result_independent_of_timing (server : List PageResponse)
    (url : String) (params : Option Params) (durs durs' : Nat → Int) :
    (_paginate_logged server url params durs).1 = _paginate server url params ∧
    (_paginate_logged server url params durs).1 =
      (_paginate_logged server url params durs').1 := by
  have key : ∀ ds : Nat → Int,
      (_paginate_logged server url params ds).1 = _paginate server url params := by
    intro ds
    cases server with
    | nil => rfl
    | cons r rest =>
      rw [_paginate_logged, _paginate]
      cases hc : _call_api r with
      | error e => simp [hc]
      | ok resp2 =>
        simp only [hc]
        cases hb : resp2.body with
        | none => simp
        | some jd => simpa using paginate_logged_loop_fst params ds rest jd resp2 [⟨url, params⟩] 1 [_log_api_call_time (ds 0)]
  exact ⟨key durs, (key durs).trans (key durs').symm⟩

/-- C10: the limit guard fires only when `params` is a truthy (non-empty)
mapping containing `limit`: with `params` `None` or an empty mapping there
is no cap and every "next" link is followed; and with `params = ('limit', 0)`
and a first page carrying a "next" link, exactly one physical request is
issued and the entire first page is returned in full. -/
theorem limit_guard_requires_truthy_params (d : Json) (url : String)
    (r : PageResponse) (rest : List PageResponse) (nurl : String)
    (hok : okListPage r = true) (hn : r.next_url = some nurl) :
    limitReached none d = false ∧
    limitReached (some []) d = false ∧
    (∀ (rs : List PageResponse) (u : String) (p : Option Params),
      rs ≠ [] → (∀ x ∈ rs, okListPage x = true) → chainedPages rs = true →
      (p = none ∨ p = some ([] : Params)) →
      ∃ tr, _paginate rs u p = .ok (.jlist ((rs.map pageRecords).flatten), tr) ∧
        tr.length = rs.length) ∧
    _paginate (r :: rest) url (some [("limit", 0)]) =
      .ok (.jlist (pageRecords r), [⟨url, some [("limit", 0)]⟩]) := by
  have hokr := okListPage_elim hok
  refine ⟨rfl, rfl, ?_, ?_⟩
  · intro rs u p hne hok' hch hp
    have hnl : noLimitParams p = true := by
      rcases hp with rfl | rfl <;> rfl
    exact paginate_concat_of_noLimit rs u p hne hok' hch hnl
  · have hlim : limitReached (some [("limit", 0)]) (.jlist (pageRecords r)) = true :=
      limitReached_true (L := 0) (by decide) (by positivity)
    simp only [_paginate, call_api_ok hokr.1, hokr.2]
    rw [paginate_loop_of_limit rest [⟨url, some [("limit", 0)]⟩] hn hlim]

/-- Witness for C10: with `('limit', 0)` and a two-record first page that
carries a "next" link, one request is issued and both records are returned. -/
theorem limit_guard_requires_truthy_params_witness :
    limitReached none (.jlist ["a"]) = false ∧
    limitReached (some []) (.jlist ["a"]) = false ∧
    _paginate [⟨200, some (.jlist ["a", "b"]), some "u2"⟩,
               ⟨200, some (.jlist ["c"]), none⟩] "u1" (some [("limit", 0)]) =
      .ok (.jlist ["a", "b"], [⟨"u1", some [("limit", 0)]⟩]) := by
  have h := limit_guard_requires_truthy_params (.jlist ["a"]) "u1"
    ⟨200, some (.jlist ["a", "b"]), some "u2"⟩ [⟨200, some (.jlist ["c"]), none⟩]
    "u2" (by decide) rfl
  exact ⟨h.1, h.2.1, h.2.2.2⟩
